import Mathlib

/-!
Shallow embedding of the Mise Handy kitchen-operations app
(Express routes in `server/routes.ts`, `DatabaseStorage` in `server/storage.ts`,
client pages under `client/src/pages` and the client store/i18n module).

The relational database reached through the ORM is modelled as an explicit
`Storage` record of table contents plus the serial-id counters; each route
handler becomes a function from its (already decoded) request data and a
`Storage` to a response value and the successor `Storage`.
-/

/-! ## Data model (rows and insert payloads) -/

/-- A row of the `users` table (`shared/schema` via `storage.ts`); the id is a
string (uuid).  Only the fields the verified routes touch are carried. -/
structure UserRow where
  id : String
  name : String
  email : String
  role : String
  deriving DecidableEq

/-- A row of the `recipes` table as used by `routes.ts` / `storage.ts`. -/
structure Recipe where
  id : Nat
  name : String
  category : String
  portions : Nat
  prepTime : Nat
  image : String
  sourceUrl : Option String
  steps : List String
  allergens : List String
  deriving DecidableEq

/-- The payload accepted by `storage.createRecipe` (an `InsertRecipe`). -/
structure InsertRecipe where
  name : String
  category : String
  portions : Nat
  prepTime : Nat
  image : String
  sourceUrl : Option String
  steps : List String
  allergens : List String
  deriving DecidableEq

/-- A row of the `ingredients` table. -/
structure Ingredient where
  id : Nat
  recipeId : Nat
  name : String
  amount : Rat
  unit : String
  allergens : List String
  deriving DecidableEq

/-- The payload accepted by `storage.createIngredient`. -/
structure InsertIngredient where
  recipeId : Nat
  name : String
  amount : Rat
  unit : String
  allergens : List String
  deriving DecidableEq

/-- A row of the `haccp_logs` table. -/
structure HaccpLogRow where
  id : Nat
  fridgeId : Nat
  temperature : Rat
  status : String
  deriving DecidableEq

/-- The payload accepted by `storage.createHaccpLog`. -/
structure InsertHaccpLog where
  fridgeId : Nat
  temperature : Rat
  status : String
  deriving DecidableEq

/-- A row of the `guest_counts` table. -/
structure GuestCount where
  id : Nat
  date : String
  meal : String
  count : Nat
  deriving DecidableEq

/-- The payload accepted by `storage.createGuestCount` /
`storage.updateGuestCount` (the fields of `insertGuestCountSchema`). -/
structure InsertGuestCount where
  date : String
  meal : String
  count : Nat
  deriving DecidableEq

/-- A row of the `schedule_entries` table. -/
structure ScheduleEntry where
  id : Nat
  date : String
  staffId : Nat
  shiftTypeId : Nat
  deriving DecidableEq

/-- The payload accepted by `storage.createScheduleEntry`. -/
structure InsertScheduleEntry where
  date : String
  staffId : Nat
  shiftTypeId : Nat
  deriving DecidableEq

/-- The database state behind `DatabaseStorage`: table contents plus the
serial-id counter of each table with a generated integer key. -/
structure Storage where
  users : List UserRow
  recipes : List Recipe
  ingredients : List Ingredient
  haccpLogs : List HaccpLogRow
  guestCounts : List GuestCount
  scheduleEntries : List ScheduleEntry
  nextRecipeId : Nat
  nextIngredientId : Nat
  nextHaccpLogId : Nat
  nextGuestCountId : Nat
  nextScheduleEntryId : Nat
  deriving DecidableEq

/-- An empty database with all serial counters at 1. -/
def emptyStorage : Storage :=
  { users := [], recipes := [], ingredients := [], haccpLogs := [],
    guestCounts := [], scheduleEntries := [],
    nextRecipeId := 1, nextIngredientId := 1, nextHaccpLogId := 1,
    nextGuestCountId := 1, nextScheduleEntryId := 1 }

/-! ## `DatabaseStorage` operations (`server/storage.ts`) -/

/-- The row produced when `db.insert(recipes).values(recipe).returning()` runs
with the next serial id. -/
def recipeOfInsert (id : Nat) (ins : InsertRecipe) : Recipe :=
  { id := id, name := ins.name, category := ins.category,
    portions := ins.portions, prepTime := ins.prepTime, image := ins.image,
    sourceUrl := ins.sourceUrl, steps := ins.steps, allergens := ins.allergens }

/-- `DatabaseStorage.createRecipe`: insert a recipe row, returning the created
row. -/
def createRecipe (ins : InsertRecipe) (s : Storage) : Recipe × Storage :=
  let r := recipeOfInsert s.nextRecipeId ins
  (r, { s with recipes := s.recipes ++ [r], nextRecipeId := s.nextRecipeId + 1 })

/-- The row produced by inserting an `InsertIngredient` with the next serial
id. -/
def ingredientOfInsert (id : Nat) (ins : InsertIngredient) : Ingredient :=
  { id := id, recipeId := ins.recipeId, name := ins.name,
    amount := ins.amount, unit := ins.unit, allergens := ins.allergens }

/-- `DatabaseStorage.createIngredient`: insert an ingredient row, returning the
created row. -/
def createIngredient (ins : InsertIngredient) (s : Storage) : Ingredient × Storage :=
  let i := ingredientOfInsert s.nextIngredientId ins
  (i, { s with
        ingredients := s.ingredients ++ [i]
        nextIngredientId := s.nextIngredientId + 1 })

/-- `DatabaseStorage.getIngredients`: all ingredient rows of one recipe
(`where eq(ingredients.recipeId, recipeId)`). -/
def getIngredients (recipeId : Nat) (s : Storage) : List Ingredient :=
  s.ingredients.filter (fun i => i.recipeId == recipeId)

/-! ## POST /api/recipes/import (`server/routes.ts`) -/

/-- One ingredient as returned by the scraper (`scrapeRecipe`), before the
route rewrites its allergens to `[]`. -/
structure ScrapedIngredient where
  name : String
  amount : Rat
  unit : String
  deriving DecidableEq

/-- The scraped-recipe value the import route consumes. -/
structure ScrapedRecipe where
  name : String
  portions : Nat
  prepTime : Nat
  image : String
  steps : List String
  ingredients : List ScrapedIngredient
  deriving DecidableEq

/-- Response of the import route: HTTP status, optional error message, the
created recipe, and its `ingredientsList`. -/
structure ImportResponse where
  status : Nat
  error : Option String
  recipe : Option Recipe
  ingredientsList : List Ingredient
  deriving DecidableEq

/-- The `for (const ing of scraped.ingredients)` loop of the import route:
create one ingredient row per scraped ingredient, each with `allergens: []`. -/
def importIngredientsLoop (recipeId : Nat) (ings : List ScrapedIngredient)
    (s : Storage) : Storage :=
  ings.foldl
    (fun st ing =>
      (createIngredient
        { recipeId := recipeId, name := ing.name, amount := ing.amount,
          unit := ing.unit, allergens := [] } st).2)
    s

/-- Handler of `POST /api/recipes/import`.  The request body's `url` field is
`none` when absent, and the outcome of `await scrapeRecipe(url)` is passed in
as `scraped?` (the scraper module is a separate input to this route). -/
def importRoute (url? : Option String) (scraped? : Option ScrapedRecipe)
    (s : Storage) : ImportResponse × Storage :=
  match url? with
  | none =>
      ({ status := 400, error := some "URL is required", recipe := none,
         ingredientsList := [] }, s)
  | some url =>
      match scraped? with
      | none =>
          ({ status := 400, error := some "Could not parse recipe from URL",
             recipe := none, ingredientsList := [] }, s)
      | some scraped =>
          let rs := createRecipe
            { name := scraped.name, category := "Mains",
              portions := scraped.portions, prepTime := scraped.prepTime,
              image := scraped.image, sourceUrl := some url,
              steps := scraped.steps, allergens := [] } s
          let s2 := importIngredientsLoop rs.1.id scraped.ingredients rs.2
          let ings := getIngredients rs.1.id s2
          ({ status := 201, error := none, recipe := some rs.1,
             ingredientsList := ings }, s2)

/-- The `InsertRecipe` literal the import route passes to
`storage.createRecipe`. -/
def importInsertPayload (url : String) (scraped : ScrapedRecipe) : InsertRecipe :=
  { name := scraped.name, category := "Mains", portions := scraped.portions,
    prepTime := scraped.prepTime, image := scraped.image,
    sourceUrl := some url, steps := scraped.steps, allergens := [] }

/-! ## The recipe scraper (`server/scraper.ts`, absent from the snapshot)

`scrapeRecipe` is imported by `routes.ts` but its module source is not part of
the snapshot, so the scraper is modelled from the spec. -/

/-- Modelled from the spec: `server/scraper.ts` is missing from the snapshot.
A fetched page is a sequence of nodes; a node is either a semi-standardized
embedded recipe-metadata block or a plain HTML element reachable by a
selector. -/
inductive PageNode where
  | metaBlock (name : String) (portionsText : String) (durationText : String)
      (image : String) (steps : List String) (ingredientLines : List String)
  | tag (selector : String) (text : String)
  deriving DecidableEq

/-- Modelled from the spec: `server/scraper.ts` is missing from the snapshot.
The raw fields one extraction path yields before normalization: free-text
quantities, durations and ingredient lines. -/
structure RawRecipe where
  name : String
  portionsText : String
  durationText : String
  image : String
  steps : List String
  ingredientLines : List String
  deriving DecidableEq

/-- Modelled from the spec: `server/scraper.ts` is missing from the snapshot.
Locate the structured recipe data: the first embedded metadata block of the
page, if any. -/
def extractStructured (page : List PageNode) : Option RawRecipe :=
  page.findSome? (fun n =>
    match n with
    | .metaBlock name portionsText durationText image steps ingredientLines =>
        some { name := name, portionsText := portionsText,
               durationText := durationText, image := image, steps := steps,
               ingredientLines := ingredientLines }
    | .tag _ _ => none)

/-- Modelled from the spec: `server/scraper.ts` is missing from the snapshot.
Text of the first element matching a selector. -/
def selectorText (sel : String) (page : List PageNode) : Option String :=
  page.findSome? (fun n =>
    match n with
    | .tag s t => if s == sel then some t else none
    | .metaBlock _ _ _ _ _ _ => none)

/-- Modelled from the spec: `server/scraper.ts` is missing from the snapshot.
Texts of all elements matching a selector. -/
def selectorTexts (sel : String) (page : List PageNode) : List String :=
  page.filterMap (fun n =>
    match n with
    | .tag s t => if s == sel then some t else none
    | .metaBlock _ _ _ _ _ _ => none)

/-- Modelled from the spec: `server/scraper.ts` is missing from the snapshot.
Heuristic HTML-selector scraping: succeeds when a title element exists and
collects the remaining fields from conventional selectors. -/
def extractHeuristic (page : List PageNode) : Option RawRecipe :=
  match selectorText "h1" page with
  | none => none
  | some title =>
      some { name := title,
             portionsText := (selectorText ".portions" page).getD "",
             durationText := (selectorText ".prep-time" page).getD "",
             image := (selectorText "img" page).getD "",
             steps := selectorTexts ".step" page,
             ingredientLines := selectorTexts ".ingredient" page }

/-- Modelled from the spec: `server/scraper.ts` is missing from the snapshot.
The leading decimal number of a free-text field, when it has one. -/
def leadingNat (s : String) : Option Nat :=
  (String.mk (s.data.takeWhile Char.isDigit)).toNat?

/-- Modelled from the spec: `server/scraper.ts` is missing from the snapshot.
Normalize one free-text ingredient line into the amount/unit/name shape of the
ingredient schema. -/
def parseIngredientLine (line : String) : ScrapedIngredient :=
  match (line.splitOn " ").filter (fun w => w ≠ "") with
  | [] => { name := line, amount := 1, unit := "" }
  | w :: rest =>
      match w.toNat? with
      | none => { name := line, amount := 1, unit := "" }
      | some n =>
          match rest with
          | [] => { name := "", amount := (n : Rat), unit := "" }
          | u :: rest2 =>
              { name := String.intercalate " " rest2, amount := (n : Rat),
                unit := u }

/-- Modelled from the spec: `server/scraper.ts` is missing from the snapshot.
Normalize the extracted raw fields (quantities, durations, free-text
ingredient lines) into the recipe/ingredient schema. -/
def normalizeRaw (raw : RawRecipe) : ScrapedRecipe :=
  { name := raw.name,
    portions := (leadingNat raw.portionsText).getD 1,
    prepTime := (leadingNat raw.durationText).getD 0,
    image := raw.image,
    steps := raw.steps,
    ingredients := raw.ingredientLines.map parseIngredientLine }

/-- Modelled from the spec: `server/scraper.ts` is missing from the snapshot.
`scrapeRecipe` on a fetched page: locate structured recipe data, or fall back
to heuristic HTML-selector scraping, then normalize. -/
def scrapeRecipe (page : List PageNode) : Option ScrapedRecipe :=
  match extractStructured page with
  | some raw => some (normalizeRaw raw)
  | none => (extractHeuristic page).map normalizeRaw

/-- The import pipeline with the scraper inlined: `POST /api/recipes/import`
run against the content of the fetched page. -/
def importFromPage (url? : Option String) (page : List PageNode)
    (s : Storage) : ImportResponse × Storage :=
  importRoute url? (scrapeRecipe page) s

/-- The scraper-extracted fields of a stored recipe row (everything except the
server-assigned id and the fields the route fixes itself). -/
def recipeScrapedFields (r : Recipe) : String × Nat × Nat × String × List String :=
  (r.name, r.portions, r.prepTime, r.image, r.steps)

/-- The scraper-extracted fields of a stored ingredient row. -/
def ingredientScrapedFields (i : Ingredient) : String × Rat × String :=
  (i.name, i.amount, i.unit)

/-- Everything an import response reveals about the extraction outcome,
with server-assigned ids erased. -/
def importExtract (resp : ImportResponse) :
    Nat × Option (String × Nat × Nat × String × List String) × List (String × Rat × String) :=
  (resp.status, resp.recipe.map recipeScrapedFields,
   resp.ingredientsList.map ingredientScrapedFields)

/-- No stored ingredient row already points at the recipe id the next insert
will allocate (always true of states reached from an empty database, since
rows only reference already-created recipes). -/
def FreshRecipeId (s : Storage) : Prop :=
  ∀ i ∈ s.ingredients, i.recipeId ≠ s.nextRecipeId

instance (s : Storage) : Decidable (FreshRecipeId s) :=
  List.decidableBAll _ s.ingredients

/-! ## HACCP client (`client/src/pages/HACCP.tsx`, `client/src/lib/store.tsx`) -/

/-- A fridge as held in the client store. -/
structure ClientFridge where
  id : String
  name : String
  tempMin : Rat
  tempMax : Rat
  deriving DecidableEq

/-- A HACCP log entry as held in the client store. -/
structure ClientHaccpLog where
  id : String
  fridgeId : String
  temperature : Rat
  timestamp : String
  user : String
  status : String
  deriving DecidableEq

/-- The client store state (`AppProvider` in `store.tsx`); `fridges` has no
setter, `logs` is updated through `addLog` only. -/
structure ClientState where
  fridges : List ClientFridge
  logs : List ClientHaccpLog
  deriving DecidableEq

/-- `addLog` of the client store: prepend the new log. -/
def addLog (log : ClientHaccpLog) (s : ClientState) : ClientState :=
  { s with logs := log :: s.logs }

/-- The status computed by `LogDialog.handleSubmit`:
`(val >= fridge.tempMin && val <= fridge.tempMax) ? "OK" : "WARNING"`. -/
def haccpStatus (val : Rat) (f : ClientFridge) : String :=
  if f.tempMin ≤ val ∧ val ≤ f.tempMax then "OK" else "WARNING"

/-- `LogDialog.handleSubmit`: `val?` is the result of `parseFloat(temp)`
(`none` for NaN, on which the handler returns without logging); `logId` and
`ts` stand for the generated random id and the current timestamp. -/
def handleSubmit (val? : Option Rat) (f : ClientFridge) (logId ts : String)
    (s : ClientState) : ClientState :=
  match val? with
  | none => s
  | some val =>
      addLog { id := logId, fridgeId := f.id, temperature := val,
               timestamp := ts, user := "Chef User",
               status := haccpStatus val f } s

/-! ## Allergen table and recipe editing (`client/src/lib/i18n`, `Recipes.tsx`) -/

/-- One entry of the `ALLERGENS` table of the client i18n module. -/
structure AllergenInfo where
  code : String
  de : String
  en : String
  deriving DecidableEq

/-- The `ALLERGENS` table: the EU-14 allergen categories as defined in
`client/src/lib/i18n` (mirrored in `store.tsx`). -/
def ALLERGENS : List AllergenInfo :=
  [ { code := "A", de := "Glutenhaltiges Getreide", en := "Gluten" },
    { code := "B", de := "Krebstiere", en := "Crustaceans" },
    { code := "C", de := "Eier", en := "Eggs" },
    { code := "D", de := "Fisch", en := "Fish" },
    { code := "E", de := "Erdnüsse", en := "Peanuts" },
    { code := "F", de := "Soja", en := "Soy" },
    { code := "G", de := "Milch", en := "Milk" },
    { code := "H", de := "Schalenfrüchte", en := "Nuts" },
    { code := "L", de := "Sellerie", en := "Celery" },
    { code := "M", de := "Senf", en := "Mustard" },
    { code := "N", de := "Sesam", en := "Sesame" },
    { code := "O", de := "Sulfite", en := "Sulphites" },
    { code := "P", de := "Lupinen", en := "Lupin" },
    { code := "R", de := "Weichtiere", en := "Molluscs" } ]

/-- The allergen codes of the table (`Object.values(ALLERGENS)` keyed by
`code`). -/
def allergenCodes : List String := ALLERGENS.map (fun a => a.code)

/-- `toggleAllergen` of the recipe edit dialog (`Recipes.tsx`): remove the
code when present, append it otherwise. -/
def toggleAllergen (code : String) (editAllergens : List String) : List String :=
  if code ∈ editAllergens then editAllergens.filter (fun a => a ≠ code)
  else editAllergens ++ [code]

/-- A sequence of allergen-badge clicks in the edit dialog, each toggling the
clicked table entry (`onClick={() => toggleAllergen(alg.code)}` over
`Object.values(ALLERGENS)`). -/
def toggleClicks (clicks : List AllergenInfo) (init : List String) : List String :=
  clicks.foldl (fun l a => toggleAllergen a.code l) init

/-- The `InsertRecipe` the `POST /api/seed-recipes` loop passes to
`storage.createRecipe` for one entry of its literal recipe list
(`image: null` and `sourceUrl: null` are modelled as the empty string and
`none`). -/
def seedRecipeInsert (name category : String) (portions prepTime : Nat)
    (allergens : List String) (steps : List String) : InsertRecipe :=
  { name := name, category := category, portions := portions,
    prepTime := prepTime, image := "", sourceUrl := none, steps := steps,
    allergens := allergens }

/-- The "Selleriecremesuppe" entry of the `POST /api/seed-recipes` literal
list in `routes.ts`, carrying allergen code "I". -/
def seedSelleriecremesuppe : InsertRecipe :=
  seedRecipeInsert "Selleriecremesuppe" "Soups" 4 30 ["G", "I"]
    ["Sellerie kochen", "Pürieren", "Mit Obers verfeinern"]

/-! ## GET-side recipe filtering (`DatabaseStorage.getRecipes`) -/

/-- Lower-casing as used by `toLowerCase()` in `getRecipes`. -/
def toLowerStr (s : String) : String := s.map Char.toLower

/-- `r.name.toLowerCase().includes(searchTerm)`: the lower-cased query occurs
as a contiguous substring of the lower-cased name. -/
def containsLower (name q : String) : Bool :=
  decide ((toLowerStr q).data <:+: (toLowerStr name).data)

/-- `DatabaseStorage.getRecipes`: optional category equality filter pushed to
the query, then an in-memory case-insensitive name filter applied only when
the search term has length at least 2. -/
def getRecipes (q? category? : Option String) (rs : List Recipe) : List Recipe :=
  let results := match category? with
    | some c => rs.filter (fun r => r.category == c)
    | none => rs
  match q? with
  | some q => if 2 ≤ q.length then results.filter (fun r => containsLower r.name q)
              else results
  | none => results

/-! ## Validated create endpoints (`POST /api/recipes`, `/api/haccp-logs`,
`/api/schedule`) -/

/-- A JSON response carrying a status, an optional error message and an
optional body value. -/
structure RouteResponse (α : Type) where
  status : Nat
  error : Option String
  body : Option α

/-- One entry of the raw `req.body.ingredientsList` array of
`POST /api/recipes` (not schema-validated; `allergens` may be absent). -/
structure BodyIngredient where
  name : String
  amount : Rat
  unit : String
  allergens : Option (List String)
  deriving DecidableEq

/-- The `for (const ing of req.body.ingredientsList)` loop of
`POST /api/recipes` (`ing.allergens || []`). -/
def recipesIngredientsLoop (recipeId : Nat) (l : List BodyIngredient)
    (s : Storage) : Storage :=
  l.foldl
    (fun st ing =>
      (createIngredient
        { recipeId := recipeId, name := ing.name, amount := ing.amount,
          unit := ing.unit, allergens := ing.allergens.getD [] } st).2)
    s

/-- Handler of `POST /api/recipes`: `parsed` is the outcome of
`insertRecipeSchema.parse(req.body)` (`Except.error` when the schema throws),
`ingredientsList?` the optional raw array of the body. -/
def postRecipes (parsed : Except String InsertRecipe)
    (ingredientsList? : Option (List BodyIngredient)) (s : Storage) :
    RouteResponse Recipe × Storage :=
  match parsed with
  | .error msg => ({ status := 400, error := some msg, body := none }, s)
  | .ok p =>
      let rs := createRecipe p s
      let s2 := match ingredientsList? with
        | some l => recipesIngredientsLoop rs.1.id l rs.2
        | none => rs.2
      ({ status := 201, error := none, body := some rs.1 }, s2)

/-- The row produced by inserting an `InsertHaccpLog` with the next serial
id. -/
def haccpLogOfInsert (id : Nat) (ins : InsertHaccpLog) : HaccpLogRow :=
  { id := id, fridgeId := ins.fridgeId, temperature := ins.temperature,
    status := ins.status }

/-- `DatabaseStorage.createHaccpLog`. -/
def createHaccpLog (ins : InsertHaccpLog) (s : Storage) : HaccpLogRow × Storage :=
  let row := haccpLogOfInsert s.nextHaccpLogId ins
  (row, { s with
          haccpLogs := s.haccpLogs ++ [row]
          nextHaccpLogId := s.nextHaccpLogId + 1 })

/-- Handler of `POST /api/haccp-logs`: `parsed` is the outcome of
`insertHaccpLogSchema.parse(req.body)`. -/
def postHaccpLogs (parsed : Except String InsertHaccpLog) (s : Storage) :
    RouteResponse HaccpLogRow × Storage :=
  match parsed with
  | .error msg => ({ status := 400, error := some msg, body := none }, s)
  | .ok p =>
      let rs := createHaccpLog p s
      ({ status := 201, error := none, body := some rs.1 }, rs.2)

/-- The row produced by inserting an `InsertScheduleEntry` with the next
serial id. -/
def scheduleEntryOfInsert (id : Nat) (ins : InsertScheduleEntry) : ScheduleEntry :=
  { id := id, date := ins.date, staffId := ins.staffId,
    shiftTypeId := ins.shiftTypeId }

/-- `DatabaseStorage.createScheduleEntry`. -/
def createScheduleEntry (ins : InsertScheduleEntry) (s : Storage) :
    ScheduleEntry × Storage :=
  let row := scheduleEntryOfInsert s.nextScheduleEntryId ins
  (row, { s with
          scheduleEntries := s.scheduleEntries ++ [row]
          nextScheduleEntryId := s.nextScheduleEntryId + 1 })

/-- Handler of `POST /api/schedule`: `parsed` is the outcome of
`insertScheduleEntrySchema.parse(req.body)`. -/
def postSchedule (parsed : Except String InsertScheduleEntry) (s : Storage) :
    RouteResponse ScheduleEntry × Storage :=
  match parsed with
  | .error msg => ({ status := 400, error := some msg, body := none }, s)
  | .ok p =>
      let rs := createScheduleEntry p s
      ({ status := 201, error := none, body := some rs.1 }, rs.2)

/-! ## Guest counts (`POST /api/guests`) -/

/-- `DatabaseStorage.getGuestCountByDateMeal`: the first row matching both
date and meal. -/
def getGuestCountByDateMeal (date meal : String) (s : Storage) : Option GuestCount :=
  s.guestCounts.find? (fun g => g.date == date && g.meal == meal)

/-- The row produced by inserting an `InsertGuestCount` with the next serial
id. -/
def guestCountOfInsert (id : Nat) (ins : InsertGuestCount) : GuestCount :=
  { id := id, date := ins.date, meal := ins.meal, count := ins.count }

/-- `DatabaseStorage.createGuestCount`. -/
def createGuestCount (ins : InsertGuestCount) (s : Storage) : GuestCount × Storage :=
  let row := guestCountOfInsert s.nextGuestCountId ins
  (row, { s with
          guestCounts := s.guestCounts ++ [row]
          nextGuestCountId := s.nextGuestCountId + 1 })

/-- `DatabaseStorage.updateGuestCount`: set the insert fields on the row with
the given id and return the updated row. -/
def updateGuestCount (id : Nat) (ins : InsertGuestCount) (s : Storage) :
    Option GuestCount × Storage :=
  let updatedRows := s.guestCounts.map (fun g =>
    if g.id == id then { g with date := ins.date, meal := ins.meal,
                                count := ins.count }
    else g)
  (updatedRows.find? (fun g => g.id == id), { s with guestCounts := updatedRows })

/-- Handler of `POST /api/guests` after successful schema validation: update
the row with the same (date, meal) in place (responding 200), or create a new
row (responding 201). -/
def postGuests (parsed : InsertGuestCount) (s : Storage) :
    RouteResponse GuestCount × Storage :=
  match getGuestCountByDateMeal parsed.date parsed.meal s with
  | some existing =>
      let us := updateGuestCount existing.id parsed s
      ({ status := 200, error := none, body := us.1 }, us.2)
  | none =>
      let cs := createGuestCount parsed s
      ({ status := 201, error := none, body := some cs.1 }, cs.2)

/-- No two guest-count rows share the same (date, meal) pair. -/
def GuestPairsUnique (l : List GuestCount) : Prop :=
  l.Pairwise (fun a b => ¬(a.date = b.date ∧ a.meal = b.meal))

instance (l : List GuestCount) : Decidable (GuestPairsUnique l) :=
  List.instDecidablePairwise l

/-- The serial ids of the guest-count rows are pairwise distinct (a database
key invariant). -/
def GuestIdsUnique (l : List GuestCount) : Prop :=
  l.Pairwise (fun a b => a.id ≠ b.id)

instance (l : List GuestCount) : Decidable (GuestIdsUnique l) :=
  List.instDecidablePairwise l

/-! ## Admin user deletion (`DELETE /api/admin/users/:id`) -/

/-- `DatabaseStorage.deleteUser`: remove every row whose id equals the given
id. -/
def deleteUser (id : String) (s : Storage) : Storage :=
  { s with users := s.users.filter (fun u => u.id ≠ id) }

/-- A bodyless response: status plus optional error message. -/
structure DeleteResponse where
  status : Nat
  error : Option String
  deriving DecidableEq

/-- Handler of `DELETE /api/admin/users/:id` for an authenticated admin:
refuse when the target id is the admin's own id, delete otherwise. -/
def deleteUserRoute (currentUserId targetId : String) (s : Storage) :
    DeleteResponse × Storage :=
  if targetId = currentUserId then
    ({ status := 400, error := some "Sie können sich nicht selbst löschen" }, s)
  else
    ({ status := 204, error := none }, deleteUser targetId s)

/-! ## Sample data used to instantiate theorems on concrete inputs -/

/-- A concrete scraped recipe. -/
def sampleScraped : ScrapedRecipe :=
  { name := "Goulash", portions := 4, prepTime := 90, image := "img.jpg",
    steps := ["brown the beef", "simmer"],
    ingredients := [ { name := "Beef", amount := 500, unit := "g" },
                     { name := "Paprika", amount := 2, unit := "tbsp" } ] }

/-- A concrete raw extraction result. -/
def sampleRaw : RawRecipe :=
  { name := "Goulash", portionsText := "4 Portionen", durationText := "90 min",
    image := "img.jpg", steps := ["brown the beef"],
    ingredientLines := ["500 g Beef"] }

/-- A concrete page carrying both a metadata block and heuristic-reachable
elements. -/
def samplePage : List PageNode :=
  [ PageNode.tag "h1" "Fallback Title",
    PageNode.metaBlock "Goulash" "4 Portionen" "90 min" "img.jpg"
      ["brown the beef"] ["500 g Beef"] ]

/-- A database holding one guest-count row. -/
def sampleGuestStorage : Storage :=
  { emptyStorage with
    guestCounts := [ { id := 1, date := "2026-01-01", meal := "lunch", count := 10 } ]
    nextGuestCountId := 2 }

/-- A concrete validated guest-count payload colliding with the stored row. -/
def sampleGuestInsert : InsertGuestCount :=
  { date := "2026-01-01", meal := "lunch", count := 25 }

/-- A database holding two user rows. -/
def sampleUsersStorage : Storage :=
  { emptyStorage with
    users := [ { id := "u1", name := "Admin", email := "admin@mise.app", role := "admin" },
               { id := "u2", name := "Cook", email := "cook@mise.app", role := "koch" } ] }

/-- A concrete recipe row. -/
def sampleRecipeRow : Recipe :=
  { id := 1, name := "Tomato Soup", category := "Mains", portions := 4,
    prepTime := 30, image := "", sourceUrl := none, steps := [],
    allergens := ["L"] }

/-! ## Helper lemmas -/

theorem importIngredientsLoop_spec (rid : Nat) (l : List ScrapedIngredient) (s : Storage) :
    ∃ newIngs : List Ingredient,
      (importIngredientsLoop rid l s).ingredients = s.ingredients ++ newIngs ∧
      (importIngredientsLoop rid l s).recipes = s.recipes ∧
      (importIngredientsLoop rid l s).nextRecipeId = s.nextRecipeId ∧
      (∀ i ∈ newIngs, i.recipeId = rid ∧ i.allergens = []) ∧
      newIngs.map ingredientScrapedFields
        = l.map (fun g => (g.name, g.amount, g.unit)) := by
  induction l generalizing s with
  | nil =>
      exact ⟨[], by simp [importIngredientsLoop]⟩
  | cons ing rest ih =>
      have hstep :
          importIngredientsLoop rid (ing :: rest) s
            = importIngredientsLoop rid rest
                ((createIngredient
                  { recipeId := rid, name := ing.name, amount := ing.amount,
                    unit := ing.unit, allergens := [] } s).2) := by
        simp [importIngredientsLoop, List.foldl_cons]
      obtain ⟨newIngs, h1, h2, h3, h4, h5⟩ :=
        ih ((createIngredient
              { recipeId := rid, name := ing.name, amount := ing.amount,
                unit := ing.unit, allergens := [] } s).2)
      refine ⟨ingredientOfInsert s.nextIngredientId
          { recipeId := rid, name := ing.name, amount := ing.amount,
            unit := ing.unit, allergens := [] } :: newIngs, ?_, ?_, ?_, ?_, ?_⟩
      · rw [hstep, h1]; simp [createIngredient]
      · rw [hstep, h2]; simp [createIngredient]
      · rw [hstep, h3]; simp [createIngredient]
      · intro i hi
        rcases List.mem_cons.mp hi with h | h
        · subst h; exact ⟨rfl, rfl⟩
        · exact h4 i h
      · simp only [List.map_cons, h5, ingredientOfInsert, ingredientScrapedFields]

theorem importRoute_success_spec (url : String) (scraped : ScrapedRecipe)
    (s : Storage) (hfresh : FreshRecipeId s) :
    ∃ newIngs : List Ingredient,
      (importRoute (some url) (some scraped) s).1
        = { status := 201, error := none,
            recipe := some (recipeOfInsert s.nextRecipeId (importInsertPayload url scraped)),
            ingredientsList := newIngs } ∧
      (importRoute (some url) (some scraped) s).2.recipes
        = s.recipes ++ [recipeOfInsert s.nextRecipeId (importInsertPayload url scraped)] ∧
      (importRoute (some url) (some scraped) s).2.ingredients
        = s.ingredients ++ newIngs ∧
      (∀ i ∈ newIngs, i.recipeId = s.nextRecipeId ∧ i.allergens = []) ∧
      newIngs.map ingredientScrapedFields
        = scraped.ingredients.map (fun g => (g.name, g.amount, g.unit)) := by
  obtain ⟨newIngs, h1, h2, h3, h4, h5⟩ :=
    importIngredientsLoop_spec (recipeOfInsert s.nextRecipeId (importInsertPayload url scraped)).id
      scraped.ingredients
      (createRecipe (importInsertPayload url scraped) s).2
  have hid : (recipeOfInsert s.nextRecipeId (importInsertPayload url scraped)).id
      = s.nextRecipeId := rfl
  have hcr1 : (createRecipe (importInsertPayload url scraped) s).2.ingredients
      = s.ingredients := rfl
  have hcr2 : (createRecipe (importInsertPayload url scraped) s).2.recipes
      = s.recipes ++ [recipeOfInsert s.nextRecipeId (importInsertPayload url scraped)] := rfl
  have hroute : importRoute (some url) (some scraped) s
      = ({ status := 201, error := none,
           recipe := some (recipeOfInsert s.nextRecipeId (importInsertPayload url scraped)),
           ingredientsList :=
             getIngredients (recipeOfInsert s.nextRecipeId (importInsertPayload url scraped)).id
               (importIngredientsLoop
                 (recipeOfInsert s.nextRecipeId (importInsertPayload url scraped)).id
                 scraped.ingredients
                 (createRecipe (importInsertPayload url scraped) s).2) },
         importIngredientsLoop
           (recipeOfInsert s.nextRecipeId (importInsertPayload url scraped)).id
           scraped.ingredients
           (createRecipe (importInsertPayload url scraped) s).2) := by
    simp [importRoute, createRecipe, importInsertPayload]
  have hget :
      getIngredients (recipeOfInsert s.nextRecipeId (importInsertPayload url scraped)).id
        (importIngredientsLoop
          (recipeOfInsert s.nextRecipeId (importInsertPayload url scraped)).id
          scraped.ingredients
          (createRecipe (importInsertPayload url scraped) s).2) = newIngs := by
    rw [getIngredients, h1, hcr1, hid, List.filter_append]
    have hleft : s.ingredients.filter (fun i => i.recipeId == s.nextRecipeId) = [] := by
      apply List.filter_eq_nil_iff.mpr
      intro i hi
      simpa using hfresh i hi
    have hright : newIngs.filter (fun i => i.recipeId == s.nextRecipeId) = newIngs := by
      apply List.filter_eq_self.mpr
      intro i hi
      simpa [hid] using (h4 i hi).1
    rw [hleft, hright, List.nil_append]
  refine ⟨newIngs, ?_, ?_, ?_, ?_, h5⟩
  · rw [hroute]; simp [hget]
  · rw [hroute]; simp [h2, hcr2]
  · rw [hroute]; simp [h1, hcr1]
  · intro i hi
    have := h4 i hi
    rwa [hid] at this

/-! ## Claim theorems -/

/-- Claim C1: for every POST /api/recipes/import request whose body contains a
url, if `scrapeRecipe` returns a scraped recipe, the endpoint creates exactly
one recipe record whose `sourceUrl` equals the submitted url, whose category
is "Mains", and whose allergens list is empty, creates one ingredient row
(with empty allergens) per scraped ingredient, and responds 201 with the
created recipe together with its ingredient list. -/
theorem import_creates_recipe_and_ingredients (url : String)
    (scraped : ScrapedRecipe) (s : Storage) (hfresh : FreshRecipeId s) :
    ∃ (r : Recipe) (newIngs : List Ingredient),
      (importRoute (some url) (some scraped) s).1.status = 201 ∧
      (importRoute (some url) (some scraped) s).2.recipes = s.recipes ++ [r] ∧
      r.sourceUrl = some url ∧ r.category = "Mains" ∧ r.allergens = [] ∧
      r.name = scraped.name ∧
      (importRoute (some url) (some scraped) s).2.ingredients
        = s.ingredients ++ newIngs ∧
      newIngs.length = scraped.ingredients.length ∧
      (∀ i ∈ newIngs, i.recipeId = r.id ∧ i.allergens = []) ∧
      (importRoute (some url) (some scraped) s).1.recipe = some r ∧
      (importRoute (some url) (some scraped) s).1.ingredientsList = newIngs := by
  obtain ⟨newIngs, hresp, hrec, hing, hmem, hmap⟩ :=
    importRoute_success_spec url scraped s hfresh
  refine ⟨recipeOfInsert s.nextRecipeId (importInsertPayload url scraped), newIngs,
    ?_, hrec, rfl, rfl, rfl, rfl, hing, ?_, ?_, ?_, ?_⟩
  · rw [hresp]
  · have := congrArg List.length hmap
    simpa using this
  · intro i hi
    exact hmem i hi
  · rw [hresp]
  · rw [hresp]

/-- Witness for claim C1 at a concrete url, scraped recipe and empty
database. -/
theorem import_creates_recipe_and_ingredients_witness :
    FreshRecipeId emptyStorage ∧
    ∃ (r : Recipe) (newIngs : List Ingredient),
      (importRoute (some "https://example.com/goulash") (some sampleScraped)
        emptyStorage).1.status = 201 ∧
      (importRoute (some "https://example.com/goulash") (some sampleScraped)
        emptyStorage).2.recipes = emptyStorage.recipes ++ [r] ∧
      r.sourceUrl = some "https://example.com/goulash" ∧
      r.category = "Mains" ∧ r.allergens = [] ∧
      r.name = sampleScraped.name ∧
      (importRoute (some "https://example.com/goulash") (some sampleScraped)
        emptyStorage).2.ingredients = emptyStorage.ingredients ++ newIngs ∧
      newIngs.length = sampleScraped.ingredients.length ∧
      (∀ i ∈ newIngs, i.recipeId = r.id ∧ i.allergens = []) ∧
      (importRoute (some "https://example.com/goulash") (some sampleScraped)
        emptyStorage).1.recipe = some r ∧
      (importRoute (some "https://example.com/goulash") (some sampleScraped)
        emptyStorage).1.ingredientsList = newIngs :=
  ⟨by decide,
   import_creates_recipe_and_ingredients "https://example.com/goulash"
     sampleScraped emptyStorage (by decide)⟩

/-- Claim C3: POST /api/recipes/import responds 400 when the body has no url,
and 400 with "Could not parse recipe from URL" when the scraper returns no
recipe; in both cases the stored state is unchanged. -/
theorem import_error_cases (s : Storage) (scraped? : Option ScrapedRecipe)
    (url : String) :
    importRoute none scraped? s
      = ({ status := 400, error := some "URL is required", recipe := none,
           ingredientsList := [] }, s) ∧
    importRoute (some url) none s
      = ({ status := 400, error := some "Could not parse recipe from URL",
           recipe := none, ingredientsList := [] }, s) :=
  ⟨rfl, rfl⟩

/-- Claim C2: the scraper first attempts to locate a structured
recipe-metadata block in the fetched page, and only if none is found falls
back to heuristic HTML-selector scraping. -/
theorem scrapeRecipe_structured_first (page : List PageNode) :
    (∀ raw, extractStructured page = some raw →
      scrapeRecipe page = some (normalizeRaw raw)) ∧
    (extractStructured page = none →
      scrapeRecipe page = (extractHeuristic page).map normalizeRaw) := by
  constructor
  · intro raw h
    simp [scrapeRecipe, h]
  · intro h
    simp [scrapeRecipe, h]

/-- Witness for claim C2 on a concrete page where both a metadata block and a
heuristic title are present: the structured block wins. -/
theorem scrapeRecipe_structured_first_witness :
    extractStructured samplePage = some sampleRaw ∧
    scrapeRecipe samplePage = some (normalizeRaw sampleRaw) :=
  ⟨by decide, (scrapeRecipe_structured_first samplePage).1 sampleRaw (by decide)⟩

/-- Claim C7: the scraper is stateless and deterministic: the extraction
outcome of an import (status, extracted recipe fields, extracted ingredient
fields) is the same from any two database states, i.e. it depends only on the
fetched page content. -/
theorem scrapeRecipe_stateless (url : String) (page : List PageNode)
    (s₁ s₂ : Storage) (h₁ : FreshRecipeId s₁) (h₂ : FreshRecipeId s₂) :
    importExtract (importFromPage (some url) page s₁).1
      = importExtract (importFromPage (some url) page s₂).1 := by
  unfold importFromPage
  cases hscr : scrapeRecipe page with
  | none => rfl
  | some scraped =>
      obtain ⟨n₁, hresp₁, -, -, -, hmap₁⟩ := importRoute_success_spec url scraped s₁ h₁
      obtain ⟨n₂, hresp₂, -, -, -, hmap₂⟩ := importRoute_success_spec url scraped s₂ h₂
      rw [hresp₁, hresp₂]
      simp only [importExtract, Option.map_some]
      refine congrArg _ ?_
      refine congrArg _ ?_
      rw [hmap₁, hmap₂]

/-- Witness for claim C7: one concrete page imported into two different
database states yields the same extraction outcome. -/
theorem scrapeRecipe_stateless_witness :
    FreshRecipeId emptyStorage ∧ FreshRecipeId sampleGuestStorage ∧
    importExtract (importFromPage (some "https://example.com/goulash")
        samplePage emptyStorage).1
      = importExtract (importFromPage (some "https://example.com/goulash")
        samplePage sampleGuestStorage).1 :=
  ⟨by decide, by decide,
   scrapeRecipe_stateless "https://example.com/goulash" samplePage
     emptyStorage sampleGuestStorage (by decide) (by decide)⟩

/-- Claim C4: a submitted temperature log gets status "OK" exactly when the
value lies within the fridge's `[tempMin, tempMax]` range and "WARNING"
otherwise, and logging never modifies the fridges (hence their `tempMin` and
`tempMax`). -/
theorem handleSubmit_status_ok_iff_in_range (val : Rat) (f : ClientFridge)
    (logId ts : String) (s : ClientState) :
    (handleSubmit (some val) f logId ts s).fridges = s.fridges ∧
    ∃ log : ClientHaccpLog,
      (handleSubmit (some val) f logId ts s).logs = log :: s.logs ∧
      log.temperature = val ∧ log.fridgeId = f.id ∧
      (log.status = "OK" ↔ (f.tempMin ≤ val ∧ val ≤ f.tempMax)) ∧
      (log.status = "WARNING" ↔ ¬(f.tempMin ≤ val ∧ val ≤ f.tempMax)) := by
  refine ⟨rfl, { id := logId, fridgeId := f.id, temperature := val,
                 timestamp := ts, user := "Chef User",
                 status := haccpStatus val f }, rfl, rfl, rfl, ?_, ?_⟩
  · have hne : ("WARNING" : String) ≠ "OK" := by decide
    by_cases h : f.tempMin ≤ val ∧ val ≤ f.tempMax
    · simp [haccpStatus, h]
    · simp [haccpStatus, h, hne]
  · have hne : ("OK" : String) ≠ "WARNING" := by decide
    by_cases h : f.tempMin ≤ val ∧ val ≤ f.tempMax
    · simp [haccpStatus, h, hne]
    · simp [haccpStatus, h]

/-- Claim C5, counterexample to the claim as stated: membership in the
fourteen table codes is not preserved by every recipe operation.  The
`POST /api/seed-recipes` loop persists its "Selleriecremesuppe" entry through
`storage.createRecipe`, and the stored recipe row carries allergen code "I",
which is not one of the fourteen codes of the `ALLERGENS` table. -/
theorem allergen_table_eu14_counterexample :
    (createRecipe seedSelleriecremesuppe emptyStorage).1
      ∈ (createRecipe seedSelleriecremesuppe emptyStorage).2.recipes ∧
    "I" ∈ (createRecipe seedSelleriecremesuppe emptyStorage).1.allergens ∧
    "I" ∉ allergenCodes := by
  decide

/-- Claim C5 as amended: the allergen table defines exactly fourteen distinct
codes, and the client-side recipe edit operations preserve membership in
those codes: any sequence of allergen-badge clicks (each toggling a table
entry, as the UI wires them) keeps a code list that starts inside the table
inside the table.  (Stored rows are not so confined: see the
counterexample.) -/
theorem allergen_table_eu14 :
    ALLERGENS.length = 14 ∧ allergenCodes.Nodup ∧
    ∀ (init : List String) (clicks : List AllergenInfo),
      (∀ a ∈ clicks, a ∈ ALLERGENS) →
      (∀ c ∈ init, c ∈ allergenCodes) →
      ∀ c ∈ toggleClicks clicks init, c ∈ allergenCodes := by
  refine ⟨by decide, by decide, ?_⟩
  intro init clicks
  induction clicks generalizing init with
  | nil =>
      intro _ hinit c hc
      exact hinit c (by simpa [toggleClicks] using hc)
  | cons a rest ih =>
      intro hclicks hinit
      have hstep : toggleClicks (a :: rest) init
          = toggleClicks rest (toggleAllergen a.code init) := by
        simp [toggleClicks, List.foldl_cons]
      rw [hstep]
      refine ih (toggleAllergen a.code init)
        (fun x hx => hclicks x (List.mem_cons_of_mem a hx)) ?_
      intro c hc
      unfold toggleAllergen at hc
      by_cases hmem : a.code ∈ init
      · rw [if_pos hmem] at hc
        exact hinit c (List.mem_of_mem_filter hc)
      · rw [if_neg hmem] at hc
        rcases List.mem_append.mp hc with h | h
        · exact hinit c h
        · have hac : a ∈ ALLERGENS := hclicks a (List.mem_cons_self a rest)
          have hcode : a.code ∈ allergenCodes :=
            List.mem_map_of_mem (fun x => x.code) hac
          have hca : c = a.code := List.mem_singleton.mp h
          rw [hca]
          exact hcode

/-- Witness for claim C5: clicking the milk badge on a recipe that already
carries the gluten code keeps the codes within the table. -/
theorem allergen_table_eu14_witness :
    (∀ a ∈ [AllergenInfo.mk "G" "Milch" "Milk"], a ∈ ALLERGENS) ∧
    (∀ c ∈ ["A"], c ∈ allergenCodes) ∧
    ∀ c ∈ toggleClicks [AllergenInfo.mk "G" "Milch" "Milk"] ["A"],
      c ∈ allergenCodes :=
  ⟨by decide, by decide,
   allergen_table_eu14.2.2 ["A"] [AllergenInfo.mk "G" "Milch" "Milk"]
     (by decide) (by decide)⟩

theorem recipesIngredientsLoop_recipes (rid : Nat) (l : List BodyIngredient)
    (s : Storage) : (recipesIngredientsLoop rid l s).recipes = s.recipes := by
  induction l generalizing s with
  | nil => rfl
  | cons ing rest ih =>
      have hstep : recipesIngredientsLoop rid (ing :: rest) s
          = recipesIngredientsLoop rid rest
              ((createIngredient
                { recipeId := rid, name := ing.name, amount := ing.amount,
                  unit := ing.unit, allergens := ing.allergens.getD [] } s).2) := by
        simp [recipesIngredientsLoop, List.foldl_cons]
      rw [hstep, ih]
      rfl

/-- Claim C6: the create endpoints backed by an insert schema validate before
any ORM call: a failed parse yields a 400 response with the error message and
an unchanged database, and a successful parse persists exactly the parsed
value and returns the created row with status 201. -/
theorem validated_create_endpoints (s : Storage) (msg : String)
    (pr : InsertRecipe) (il? : Option (List BodyIngredient))
    (hl : InsertHaccpLog) (se : InsertScheduleEntry) :
    (postRecipes (Except.error msg) il? s
        = ({ status := 400, error := some msg, body := none }, s)) ∧
    (postHaccpLogs (Except.error msg) s
        = ({ status := 400, error := some msg, body := none }, s)) ∧
    (postSchedule (Except.error msg) s
        = ({ status := 400, error := some msg, body := none }, s)) ∧
    ((postRecipes (Except.ok pr) il? s).1.status = 201 ∧
      (postRecipes (Except.ok pr) il? s).1.body
        = some (recipeOfInsert s.nextRecipeId pr) ∧
      (postRecipes (Except.ok pr) il? s).2.recipes
        = s.recipes ++ [recipeOfInsert s.nextRecipeId pr]) ∧
    ((postHaccpLogs (Except.ok hl) s).1.status = 201 ∧
      (postHaccpLogs (Except.ok hl) s).1.body
        = some (haccpLogOfInsert s.nextHaccpLogId hl) ∧
      (postHaccpLogs (Except.ok hl) s).2.haccpLogs
        = s.haccpLogs ++ [haccpLogOfInsert s.nextHaccpLogId hl]) ∧
    ((postSchedule (Except.ok se) s).1.status = 201 ∧
      (postSchedule (Except.ok se) s).1.body
        = some (scheduleEntryOfInsert s.nextScheduleEntryId se) ∧
      (postSchedule (Except.ok se) s).2.scheduleEntries
        = s.scheduleEntries ++ [scheduleEntryOfInsert s.nextScheduleEntryId se]) := by
  refine ⟨rfl, rfl, rfl, ⟨?_, ?_, ?_⟩, ⟨rfl, rfl, rfl⟩, ⟨rfl, rfl, rfl⟩⟩
  · cases il? <;> rfl
  · cases il? <;> rfl
  · cases il? with
    | none => rfl
    | some l =>
        exact (recipesIngredientsLoop_recipes _ l _).trans rfl

/-- Claim C8: POST /api/guests is an upsert keyed on (date, meal): an existing
row with the same pair is updated in place (200), otherwise a new row is
created (201); starting from a database whose (date, meal) pairs are unique
(and whose serial ids are unique, the key invariant), the pairs stay
unique. -/
theorem postGuests_upsert (parsed : InsertGuestCount) (s : Storage)
    (hPairs : GuestPairsUnique s.guestCounts)
    (hIds : GuestIdsUnique s.guestCounts) :
    GuestPairsUnique (postGuests parsed s).2.guestCounts ∧
    (∀ e, getGuestCountByDateMeal parsed.date parsed.meal s = some e →
      (postGuests parsed s).1.status = 200 ∧
      (postGuests parsed s).2.guestCounts.length = s.guestCounts.length ∧
      guestCountOfInsert e.id parsed ∈ (postGuests parsed s).2.guestCounts ∧
      ∀ g ∈ s.guestCounts, g.id ≠ e.id →
        g ∈ (postGuests parsed s).2.guestCounts) ∧
    (getGuestCountByDateMeal parsed.date parsed.meal s = none →
      (postGuests parsed s).1.status = 201 ∧
      (postGuests parsed s).2.guestCounts
        = s.guestCounts ++ [guestCountOfInsert s.nextGuestCountId parsed]) := by
  cases h : getGuestCountByDateMeal parsed.date parsed.meal s with
  | none =>
      have hfind := h
      simp only [getGuestCountByDateMeal] at hfind
      have hall : ∀ g ∈ s.guestCounts,
          ¬(g.date = parsed.date ∧ g.meal = parsed.meal) := by
        intro g hg
        have := List.find?_eq_none.mp hfind g hg
        simpa using this
      have hlist : (postGuests parsed s).2.guestCounts
          = s.guestCounts ++ [guestCountOfInsert s.nextGuestCountId parsed] := by
        simp only [postGuests, h, createGuestCount]
      refine ⟨?_, ?_, fun _ => ⟨by simp only [postGuests, h], hlist⟩⟩
      · rw [hlist]
        refine List.pairwise_append.mpr ⟨hPairs, List.pairwise_singleton _ _, ?_⟩
        intro a ha b hb
        have hbnew : b = guestCountOfInsert s.nextGuestCountId parsed :=
          List.mem_singleton.mp hb
        rw [hbnew]
        exact hall a ha
      · intro e' he'
        exact Option.noConfusion he'
  | some e =>
      have hfind := h
      simp only [getGuestCountByDateMeal] at hfind
      have he_mem : e ∈ s.guestCounts := List.mem_of_find?_eq_some hfind
      have he_match : e.date = parsed.date ∧ e.meal = parsed.meal := by
        have := List.find?_some hfind
        simpa using this
      have honly : ∀ b ∈ s.guestCounts, b.id ≠ e.id →
          ¬(b.date = parsed.date ∧ b.meal = parsed.meal) := by
        intro b hb hbid hmatch
        have hbe : b ≠ e := fun hEq => hbid (congrArg GuestCount.id hEq)
        have hsym : Symmetric
            (fun a b : GuestCount => ¬(a.date = b.date ∧ a.meal = b.meal)) := by
          intro x y hxy hba
          exact hxy ⟨hba.1.symm, hba.2.symm⟩
        have hR := List.Pairwise.forall hsym hPairs hb he_mem hbe
        exact hR ⟨hmatch.1.trans he_match.1.symm, hmatch.2.trans he_match.2.symm⟩
      have hlist : (postGuests parsed s).2.guestCounts
          = s.guestCounts.map (fun g =>
              if g.id == e.id then
                { g with date := parsed.date, meal := parsed.meal,
                         count := parsed.count }
              else g) := by
        simp only [postGuests, h, updateGuestCount]
      have hstatus : (postGuests parsed s).1.status = 200 := by
        simp only [postGuests, h]
      have hPairsRaw : s.guestCounts.Pairwise
          (fun a b => ¬(a.date = b.date ∧ a.meal = b.meal)) := hPairs
      have hIdsRaw : s.guestCounts.Pairwise (fun a b => a.id ≠ b.id) := hIds
      refine ⟨?_, ?_, ?_⟩
      · unfold GuestPairsUnique
        rw [hlist, List.pairwise_map]
        refine List.Pairwise.imp_of_mem ?_ (List.Pairwise.and hPairsRaw hIdsRaw)
        intro a b ha hb hab
        obtain ⟨habPair, habId⟩ := hab
        by_cases haid : a.id = e.id
        · have hbid : b.id ≠ e.id := fun hb2 => habId (haid.trans hb2.symm)
          simp only [haid, beq_self_eq_true, if_true, beq_iff_eq, hbid, if_false]
          intro hcontra
          exact honly b hb hbid ⟨hcontra.1.symm, hcontra.2.symm⟩
        · by_cases hbid : b.id = e.id
          · simp only [beq_iff_eq, haid, if_false, hbid, beq_self_eq_true, if_true]
            intro hcontra
            exact honly a ha haid ⟨hcontra.1, hcontra.2⟩
          · simp only [beq_iff_eq, haid, hbid, if_false]
            exact habPair
      · intro e' he'
        have hee : e = e' := Option.some.inj he'
        subst hee
        refine ⟨hstatus, ?_, ?_, ?_⟩
        · rw [hlist, List.length_map]
        · rw [hlist]
          have hfe : (fun g : GuestCount =>
              if g.id == e.id then
                { g with date := parsed.date, meal := parsed.meal,
                         count := parsed.count }
              else g) e = guestCountOfInsert e.id parsed := by
            simp [guestCountOfInsert]
          rw [← hfe]
          exact List.mem_map_of_mem _ he_mem
        · intro g hg hgid
          rw [hlist]
          have hfg : (fun g : GuestCount =>
              if g.id == e.id then
                { g with date := parsed.date, meal := parsed.meal,
                         count := parsed.count }
              else g) g = g := by
            simp [hgid]
          rw [← hfg]
          exact List.mem_map_of_mem _ hg
      · intro h0
        exact Option.noConfusion h0

/-- Witness for claim C8: posting a guest count for a (date, meal) pair that
already has a row updates it in place and keeps the pairs unique. -/
theorem postGuests_upsert_witness :
    GuestPairsUnique sampleGuestStorage.guestCounts ∧
    GuestIdsUnique sampleGuestStorage.guestCounts ∧
    (GuestPairsUnique (postGuests sampleGuestInsert sampleGuestStorage).2.guestCounts ∧
    (∀ e, getGuestCountByDateMeal sampleGuestInsert.date sampleGuestInsert.meal
        sampleGuestStorage = some e →
      (postGuests sampleGuestInsert sampleGuestStorage).1.status = 200 ∧
      (postGuests sampleGuestInsert sampleGuestStorage).2.guestCounts.length
        = sampleGuestStorage.guestCounts.length ∧
      guestCountOfInsert e.id sampleGuestInsert
        ∈ (postGuests sampleGuestInsert sampleGuestStorage).2.guestCounts ∧
      ∀ g ∈ sampleGuestStorage.guestCounts, g.id ≠ e.id →
        g ∈ (postGuests sampleGuestInsert sampleGuestStorage).2.guestCounts) ∧
    (getGuestCountByDateMeal sampleGuestInsert.date sampleGuestInsert.meal
        sampleGuestStorage = none →
      (postGuests sampleGuestInsert sampleGuestStorage).1.status = 201 ∧
      (postGuests sampleGuestInsert sampleGuestStorage).2.guestCounts
        = sampleGuestStorage.guestCounts
          ++ [guestCountOfInsert sampleGuestStorage.nextGuestCountId
                sampleGuestInsert])) :=
  ⟨by decide, by decide,
   postGuests_upsert sampleGuestInsert sampleGuestStorage (by decide) (by decide)⟩

/-- Claim C9: `getRecipes` applies the free-text search filter only when the
query has length at least 2: a recipe is returned exactly when it is stored,
matches the category filter when one is given, and — only when a query of
length at least 2 is given — contains the query as a case-insensitive
substring of its name. -/
theorem getRecipes_search_filter (q? category? : Option String)
    (rs : List Recipe) (r : Recipe) :
    r ∈ getRecipes q? category? rs ↔
      r ∈ rs ∧ (∀ c, category? = some c → r.category = c) ∧
      (∀ q, q? = some q → 2 ≤ q.length → containsLower r.name q = true) := by
  cases category? with
  | none =>
      cases q? with
      | none => simp [getRecipes]
      | some q =>
          by_cases hq : 2 ≤ q.length
          · simp [getRecipes, hq, List.mem_filter]
          · simp [getRecipes, hq]
  | some c =>
      cases q? with
      | none => simp [getRecipes, List.mem_filter]
      | some q =>
          by_cases hq : 2 ≤ q.length
          · simp [getRecipes, hq, List.mem_filter]
            exact fun _ => and_comm
          · simp [getRecipes, hq, List.mem_filter]

/-- Witness for claim C9: the characterization instantiated at a concrete
store, query and category. -/
theorem getRecipes_search_filter_witness :
    sampleRecipeRow ∈ getRecipes (some "SOUP") (some "Mains") [sampleRecipeRow] ↔
      sampleRecipeRow ∈ [sampleRecipeRow] ∧
      (∀ c, (some "Mains" : Option String) = some c →
        sampleRecipeRow.category = c) ∧
      (∀ q, (some "SOUP" : Option String) = some q → 2 ≤ q.length →
        containsLower sampleRecipeRow.name q = true) :=
  getRecipes_search_filter (some "SOUP") (some "Mains") [sampleRecipeRow]
    sampleRecipeRow

/-- Claim C10: DELETE /api/admin/users/:id refuses self-deletion with 400 and
an unchanged database; for any other target it responds 204, no row with the
target id remains, and every other user row is kept. -/
theorem deleteUser_no_self_delete (cur tgt : String) (s : Storage) :
    (tgt = cur →
      deleteUserRoute cur tgt s
        = ({ status := 400,
             error := some "Sie können sich nicht selbst löschen" }, s)) ∧
    (tgt ≠ cur →
      (deleteUserRoute cur tgt s).1.status = 204 ∧
      (∀ u ∈ (deleteUserRoute cur tgt s).2.users, u.id ≠ tgt) ∧
      (∀ u ∈ s.users, u.id ≠ tgt → u ∈ (deleteUserRoute cur tgt s).2.users) ∧
      (deleteUserRoute cur tgt s).2.recipes = s.recipes ∧
      (deleteUserRoute cur tgt s).2.guestCounts = s.guestCounts) := by
  constructor
  · intro h
    simp [deleteUserRoute, h]
  · intro h
    have hroute : deleteUserRoute cur tgt s
        = ({ status := 204, error := none }, deleteUser tgt s) := by
      simp [deleteUserRoute, h]
    rw [hroute]
    refine ⟨rfl, ?_, ?_, rfl, rfl⟩
    · intro u hu
      have := List.of_mem_filter hu
      simpa using this
    · intro u hu hne
      exact List.mem_filter.mpr ⟨hu, by simpa using hne⟩

/-- Witness for claim C10: an admin deleting a different user succeeds and
removes exactly that user. -/
theorem deleteUser_no_self_delete_witness :
    ("u2" : String) ≠ "u1" ∧
    ((deleteUserRoute "u1" "u2" sampleUsersStorage).1.status = 204 ∧
     (∀ u ∈ (deleteUserRoute "u1" "u2" sampleUsersStorage).2.users,
        u.id ≠ "u2") ∧
     (∀ u ∈ sampleUsersStorage.users, u.id ≠ "u2" →
        u ∈ (deleteUserRoute "u1" "u2" sampleUsersStorage).2.users) ∧
     (deleteUserRoute "u1" "u2" sampleUsersStorage).2.recipes
        = sampleUsersStorage.recipes ∧
     (deleteUserRoute "u1" "u2" sampleUsersStorage).2.guestCounts
        = sampleUsersStorage.guestCounts) :=
  ⟨by decide,
   (deleteUser_no_self_delete "u1" "u2" sampleUsersStorage).2 (by decide)⟩
